import Mathlib

/-!
Shallow embedding of `hw/arm/raspi.c` (Raspberry Pi machine bring-up in a
full-system emulator): board identity table, RAM configuration validation,
board-revision-code encoding, boot-trampoline injection and boot
orchestration, together with theorems checking the specification's claims
about them.
-/

namespace Raspi

/-- `SMPBOOT_ADDR` (raspi.c line 26): guest address of the secondary-core
trampoline. -/
def SMPBOOT_ADDR : Nat := 0x300

/-- `MVBAR_ADDR` (raspi.c line 27): guest address of the secure vectors. -/
def MVBAR_ADDR : Nat := 0x400

/-- `BOARDSETUP_ADDR` (raspi.c line 28): board setup code address. -/
def BOARDSETUP_ADDR : Nat := MVBAR_ADDR + 0x20

/-- `FIRMWARE_ADDR_2` (raspi.c line 29): Pi 2 firmware load address. -/
def FIRMWARE_ADDR_2 : Nat := 0x8000

/-- `FIRMWARE_ADDR_3` (raspi.c line 30): Pi 3 firmware load address. -/
def FIRMWARE_ADDR_3 : Nat := 0x80000

/-- `SPINTABLE_ADDR` (raspi.c line 31): Pi 3 bootloader spintable address. -/
def SPINTABLE_ADDR : Nat := 0xd8

/-- `MiB` from qemu/units.h. -/
def MiB : Nat := 1024 * 1024

/-- `GiB` from qemu/units.h. -/
def GiB : Nat := 1024 * 1024 * 1024

/-- `enum BoardIdManufacturer` (raspi.c lines 33-36). -/
def M_SONY_UK : Nat := 0

/-- `enum BoardIdManufacturer` (raspi.c lines 33-36). -/
def M_EMBEST : Nat := 2

/-- `enum BoardIdChip` (raspi.c lines 38-43). -/
def C_BCM2835 : Nat := 0

/-- `enum BoardIdChip` (raspi.c lines 38-43). -/
def C_BCM2836 : Nat := 1

/-- `enum BoardIdChip` (raspi.c lines 38-43). -/
def C_BCM2837 : Nat := 2

/-- `enum BoardIdChip` (raspi.c lines 38-43). -/
def C_BCM2711 : Nat := 3

/-- `enum BoardIdType` (raspi.c lines 45-49). -/
def T_2B : Nat := 0x04

/-- `enum BoardIdType` (raspi.c lines 45-49). -/
def T_3B : Nat := 0x08

/-- `enum BoardIdType` (raspi.c lines 45-49). -/
def T_4B : Nat := 0x11

/-- `enum BoardIdRevision` (raspi.c lines 51-56). -/
def R_1_0 : Nat := 0

/-- `enum BoardIdRevision` (raspi.c lines 51-56). -/
def R_1_1 : Nat := 1

/-- `enum BoardIdRevision` (raspi.c lines 51-56). -/
def R_1_2 : Nat := 2

/-- `enum BoardIdRevision` (raspi.c lines 51-56). -/
def R_1_3 : Nat := 3

/-- The anonymous `board_rev` struct inside `struct BoardInfo`
(raspi.c lines 73-78). Enum values are embedded as their numeric codes. -/
structure BoardRev where
  type : Nat
  revision : Nat
  chip : Nat
  manufacturer : Nat
deriving DecidableEq, Repr

/-- `struct BoardInfo` (raspi.c lines 66-81). -/
structure BoardInfo where
  board_id : Nat
  board_rev : BoardRev
  ram_size_min : Nat
  ram_size_max : Nat
deriving DecidableEq, Repr

/-- The static table `bcm283x_boards[]` (raspi.c lines 83-102), a sparse
array indexed by Pi version.  Unpopulated indices of the C array are
zero-initialized; they are never used by the machine init functions, which
only pass 2, 3 or 4. -/
def bcm283x_boards : Nat → BoardInfo
  | 2 => ⟨0xc43, ⟨T_2B, R_1_1, C_BCM2836, M_EMBEST⟩, 1 * GiB, 1 * GiB⟩
  | 3 => ⟨0xc44, ⟨T_3B, R_1_2, C_BCM2837, M_SONY_UK⟩, 1 * GiB, 1 * GiB⟩
  | 4 => ⟨0xc42, ⟨T_4B, R_1_1, C_BCM2711, M_SONY_UK⟩, 1 * GiB, 8 * GiB⟩
  | _ => ⟨0, ⟨0, 0, 0, 0⟩, 0, 0⟩

/-- The versions for which a machine type is registered
(`raspi2_init`, `raspi3_init`, `raspi4_init`, raspi.c lines 307-367). -/
def supported_versions : List Nat := [2, 3, 4]

/-- QEMU's `is_power_of_2(value)` (qemu/cutils.h): false for 0, otherwise
tests `(value & (value - 1)) == 0`. -/
def is_power_of_2 (x : Nat) : Bool := x != 0 && (x &&& (x - 1)) == 0

/-- Fuel-bounded floor-log2, used to give the host `clz64` builtin an
executable embedding (64 bits of fuel suffice for any 64-bit value). -/
def log2fuel : Nat → Nat → Nat
  | 0, _ => 0
  | fuel + 1, n => if n < 2 then 0 else log2fuel fuel (n / 2) + 1

/-- QEMU's `clz64(val)`: the number of leading zero bits in the 64-bit
representation of `val`, and 64 when `val` is 0. -/
def clz64 (x : Nat) : Nat := if x = 0 then 64 else 63 - log2fuel 64 x

/-- The revision-code computation of `raspi_init` (raspi.c lines 281-285):
`board_rev = ((63 - clz64(ram_size / MiB)) << 20) | (manufacturer << 16)
| (chip << 12) | (type << 4) | (revision << 0)`.  The C computation is on
`int`; for every RAM size the validator accepts the value fits well inside
32 bits, so plain naturals are a faithful embedding there. -/
def board_rev_encode (ram_size : Nat) (version : Nat) : Nat :=
  ((63 - clz64 (ram_size / MiB)) <<< 20)
    ||| ((bcm283x_boards version).board_rev.manufacturer <<< 16)
    ||| ((bcm283x_boards version).board_rev.chip <<< 12)
    ||| ((bcm283x_boards version).board_rev.type <<< 4)
    ||| ((bcm283x_boards version).board_rev.revision <<< 0)

/-- The three fatal configuration failures of machine construction:
the three `error_report`+`exit(1)` paths of the RAM checks in `raspi_init`
(raspi.c lines 246-263) and the firmware-load failure in `setup_boot`
(raspi.c lines 222-225). -/
inductive InitError
  | TooSmall
  | TooLarge
  | NotPowerOfTwo
  | FirmwareTooBig
deriving DecidableEq, Repr

instance {e a : Type} [DecidableEq e] [DecidableEq a] : DecidableEq (Except e a) := fun x y =>
  match x, y with
  | .ok u, .ok v =>
      if h : u = v then .isTrue (by rw [h]) else .isFalse (by intro hc; cases hc; exact h rfl)
  | .error u, .error v =>
      if h : u = v then .isTrue (by rw [h]) else .isFalse (by intro hc; cases hc; exact h rfl)
  | .ok _, .error _ => .isFalse (by intro hc; cases hc)
  | .error _, .ok _ => .isFalse (by intro hc; cases hc)

/-- The RAM-size checks at the top of `raspi_init` (raspi.c lines 246-263),
in source order: too small, then too large, then not a power of two; each
failure calls `error_report` and `exit(1)`, embedded as `Except.error`. -/
def validate_ram (ram_size : Nat) (version : Nat) : Except InitError Unit :=
  if ram_size < (bcm283x_boards version).ram_size_min then .error .TooSmall
  else if ram_size > (bcm283x_boards version).ram_size_max then .error .TooLarge
  else if ¬ is_power_of_2 ram_size then .error .NotPowerOfTwo
  else .ok ()

/-- The two secondary-boot injector functions whose addresses `setup_boot`
stores in `binfo.write_secondary_boot` (raspi.c lines 206-210); a function
pointer is embedded as an optional tag, `none` standing for NULL. -/
inductive TrampolineKind
  | ThirtyTwoBit
  | SixtyFourBit
deriving DecidableEq, Repr

/-- `struct arm_boot_info` (hw/arm/boot.h), restricted to the fields
`setup_boot` touches.  In C the struct is zero-initialized, so every
default below is the all-zero value of the field: 0 for integers, false
for flags, `none` (NULL) for the function pointer. -/
structure ArmBootInfo where
  board_id : Nat := 0
  ram_size : Nat := 0
  nb_cpus : Nat := 0
  board_setup_addr : Nat := 0
  write_board_setup : Bool := false
  secure_board_setup : Bool := false
  secure_boot : Bool := false
  smp_loader_start : Nat := 0
  write_secondary_boot : Option TrampolineKind := none
  secondary_cpu_reset_hook : Bool := false
  entry : Nat := 0
  firmware_loaded : Bool := false
deriving DecidableEq, Repr

/-- The zero-initialized state of the `static struct arm_boot_info binfo`
in `setup_boot` (raspi.c line 183) at process start. -/
def initBinfo : ArmBootInfo := {}

/-- `setup_boot` (raspi.c lines 181-232).  The descriptor is a `static`
in C, so the function is embedded as a state transformer on the previous
contents `binfo0` of that static.  A supplied firmware image is embedded
by its size in bytes (`some fwsize`); `load_image_targphys` fails, for a
readable image, exactly when the image size exceeds the passed limit
`ram_size - firmware_addr`, upon which `setup_boot` reports the error and
exits.  All address arithmetic is on unsigned 64-bit values in C; every
call site passes `ram_size` far above `firmware_addr`, where truncated
natural subtraction agrees with the C computation. -/
def setup_boot (binfo0 : ArmBootInfo) (version : Nat) (ram_size : Nat)
    (nb_cpus : Nat) (firmware : Option Nat) : Except InitError ArmBootInfo :=
  let b1 := { binfo0 with
                board_id := (bcm283x_boards version).board_id,
                ram_size := ram_size,
                nb_cpus := nb_cpus }
  let b2 := if version ≤ 2 then
      { b1 with
          board_setup_addr := BOARDSETUP_ADDR,
          write_board_setup := true,
          secure_board_setup := true,
          secure_boot := true }
    else b1
  let b3 := if version ≥ 2 then
      { b2 with
          smp_loader_start := SMPBOOT_ADDR,
          write_secondary_boot :=
            some (if version == 2 then TrampolineKind.ThirtyTwoBit
                  else TrampolineKind.SixtyFourBit),
          secondary_cpu_reset_hook := true }
    else b2
  match firmware with
  | none => .ok b3
  | some fwsize =>
      let firmware_addr := if version ≥ 3 then FIRMWARE_ADDR_3 else FIRMWARE_ADDR_2
      if fwsize > ram_size - firmware_addr then .error .FirmwareTooBig
      else .ok { b3 with entry := firmware_addr, firmware_loaded := true }

/-- The construction-ordered portion of `raspi_init` (raspi.c lines
234-305) that the claims are about: RAM validation, then revision-code
encoding, then `setup_boot` on the usable RAM left after the video-core
carve-out (`machine->ram_size - vcram_size`, line 304).  Any failure
terminates construction (`exit(1)`), embedded as `Except` short-circuiting. -/
def raspi_init (binfo0 : ArmBootInfo) (version : Nat) (machine_ram : Nat)
    (nb_cpus : Nat) (vcram_size : Nat) (firmware : Option Nat) :
    Except InitError (Nat × ArmBootInfo) := do
  validate_ram machine_ram version
  let board_rev := board_rev_encode machine_ram version
  let b ← setup_boot binfo0 version (machine_ram - vcram_size) nb_cpus firmware
  pure (board_rev, b)

/-- The `static const uint32_t smpboot[]` array of `write_smpboot`
(raspi.c lines 111-124): 11 AArch32 instructions followed by one
literal-pool constant (the mailbox base `0x400000cc`). -/
def smpboot : List Nat :=
  [ 0xe1a0e00f,
    0xe3a0fe00 + (BOARDSETUP_ADDR >>> 4),
    0xee100fb0,
    0xe7e10050,
    0xe59f5014,
    0xe320f001,
    0xe7953200,
    0xe3530000,
    0x0afffffb,
    0xe7853200,
    0xe12fff13,
    0x400000cc ]

/-- The `static const uint32_t smpboot[]` array of `write_smpboot64`
(raspi.c lines 146-158): 11 AArch64 instructions. -/
def smpboot64 : List Nat :=
  [ 0xd2801b05,
    0xd53800a6,
    0x924004c6,
    0xd503205f,
    0xf86678a4,
    0xb4ffffc4,
    0xd2800000,
    0xd2800001,
    0xd2800002,
    0xd2800003,
    0xd61f0080 ]

/-- The `static const uint64_t spintables[]` array of `write_smpboot64`
(raspi.c lines 160-162): one zero 64-bit slot per core. -/
def spintables : List Nat := [0, 0, 0, 0]

/-- Little-endian byte image of one 32-bit word, as `rom_add_blob_fixed`
stores a `uint32_t` of the blob on this little-endian target. -/
def bytesOfWord32 (w : Nat) : List Nat :=
  [w % 256, w / 2 ^ 8 % 256, w / 2 ^ 16 % 256, w / 2 ^ 24 % 256]

/-- Little-endian byte image of an array of 32-bit words. -/
def bytesOfWords32 (ws : List Nat) : List Nat := (ws.map bytesOfWord32).flatten

/-- Little-endian byte image of one 64-bit word. -/
def bytesOfWord64 (w : Nat) : List Nat :=
  [w % 256, w / 2 ^ 8 % 256, w / 2 ^ 16 % 256, w / 2 ^ 24 % 256,
   w / 2 ^ 32 % 256, w / 2 ^ 40 % 256, w / 2 ^ 48 % 256, w / 2 ^ 56 % 256]

/-- Little-endian byte image of an array of 64-bit words. -/
def bytesOfWords64 (ws : List Nat) : List Nat := (ws.map bytesOfWord64).flatten

/-- Guest physical memory as a byte map, and the effect of storing a byte
sequence at an address (what committing one `rom_add_blob_fixed` blob does
to guest memory at rom-reset time). -/
def writeBytes : (Nat → Nat) → Nat → List Nat → (Nat → Nat)
  | m, _, [] => m
  | m, a, b :: bs => writeBytes (fun x => if x = a then b else m x) (a + 1) bs

/-- Committing a list of `rom_add_blob_fixed` blobs in registration order. -/
def applyBlobs (m : Nat → Nat) (blobs : List (Nat × List Nat)) : Nat → Nat :=
  blobs.foldl (fun mm ab => writeBytes mm ab.1 ab.2) m

/-- `write_smpboot` (raspi.c lines 109-134): registers the 32-bit
trampoline blob at `info->smp_loader_start`, as the list of
(address, bytes) blobs it passes to `rom_add_blob_fixed`. -/
def write_smpboot (info : ArmBootInfo) : List (Nat × List Nat) :=
  [(info.smp_loader_start, bytesOfWords32 smpboot)]

/-- `write_smpboot64` (raspi.c lines 136-168): registers the 64-bit
trampoline blob at `info->smp_loader_start` and the zero spin-table
slots at `SPINTABLE_ADDR`. -/
def write_smpboot64 (info : ArmBootInfo) : List (Nat × List Nat) :=
  [(info.smp_loader_start, bytesOfWords32 smpboot64),
   (SPINTABLE_ADDR, bytesOfWords64 spintables)]

/-- The injector a stored `write_secondary_boot` function pointer
dispatches to when the external loader invokes it. -/
def write_secondary_dispatch : TrampolineKind → ArmBootInfo → List (Nat × List Nat)
  | .ThirtyTwoBit => write_smpboot
  | .SixtyFourBit => write_smpboot64

/-- `reset_secondary` (raspi.c lines 175-179): the program counter a
non-primary core is given at reset. -/
def reset_secondary (info : ArmBootInfo) : Nat := info.smp_loader_start

/-- Little-endian read of a 64-bit word from guest memory (how a guest
core reads its spin-table slot). -/
def read64 (m : Nat → Nat) (a : Nat) : Nat :=
  m a + m (a + 1) * 2 ^ 8 + m (a + 2) * 2 ^ 16 + m (a + 3) * 2 ^ 24 +
    m (a + 4) * 2 ^ 32 + m (a + 5) * 2 ^ 40 + m (a + 6) * 2 ^ 48 +
    m (a + 7) * 2 ^ 56

/-! ### Arithmetic helper lemmas -/

lemma log2fuel_eq_log2 (fuel x : Nat) (h : x < 2 ^ fuel) : log2fuel fuel x = Nat.log2 x := by
  induction fuel generalizing x with
  | zero =>
      interval_cases x
      simp [log2fuel, Nat.log2]
  | succ f ih =>
      rw [log2fuel]
      by_cases h2 : x < 2
      · rw [if_pos h2, Nat.log2]
        simp [Nat.not_le.mpr h2]
      · rw [if_neg h2, Nat.log2, if_pos (Nat.not_lt.mp h2), ih]
        rw [Nat.div_lt_iff_lt_mul (by norm_num)]
        calc x < 2 ^ (f + 1) := h
          _ = 2 ^ f * 2 := by ring

lemma testBit_true_of_bounds {k y : Nat} (h1 : 2 ^ k ≤ y) (h2 : y < 2 ^ (k + 1)) :
    y.testBit k = true := by
  rw [Nat.testBit_to_div_mod]
  have hdiv : y / 2 ^ k = 1 := by
    have hp : 2 ^ (k + 1) = 2 * 2 ^ k := by ring
    exact Nat.div_eq_of_lt_le (by omega) (by omega)
  simp [hdiv]

lemma pow2_of_land_pred {x : Nat} (hx : x ≠ 0) (h : x &&& (x - 1) = 0) :
    x = 2 ^ Nat.log2 x := by
  by_contra hne
  have hlo : 2 ^ Nat.log2 x ≤ x := Nat.log2_self_le hx
  have hhi : x < 2 ^ (Nat.log2 x + 1) := Nat.lt_log2_self
  have hgt : 2 ^ Nat.log2 x < x := lt_of_le_of_ne hlo (fun he => hne he.symm)
  have h1 : x.testBit (Nat.log2 x) = true := testBit_true_of_bounds hlo hhi
  have h2 : (x - 1).testBit (Nat.log2 x) = true :=
    testBit_true_of_bounds (by omega) (by omega)
  have h3 := congrArg (fun y => Nat.testBit y (Nat.log2 x)) h
  simp only [Nat.testBit_and, h1, h2, Nat.zero_testBit, Bool.and_self] at h3
  exact Bool.noConfusion h3

lemma land_pred_of_pow2 (k : Nat) : (2 ^ k) &&& (2 ^ k - 1) = 0 := by
  apply Nat.eq_of_testBit_eq
  intro i
  simp only [Nat.testBit_and, Nat.testBit_two_pow, Nat.testBit_two_pow_sub_one,
    Nat.zero_testBit, Bool.and_eq_false_iff]
  by_cases hik : k = i
  · subst hik
    simp
  · simp [hik]

lemma is_power_of_2_iff (x : Nat) : is_power_of_2 x = true ↔ ∃ k, x = 2 ^ k := by
  constructor
  · intro h
    simp only [is_power_of_2, Bool.and_eq_true, bne_iff_ne, ne_eq, beq_iff_eq] at h
    exact ⟨Nat.log2 x, pow2_of_land_pred h.1 h.2⟩
  · rintro ⟨k, rfl⟩
    simp only [is_power_of_2, Bool.and_eq_true, bne_iff_ne, ne_eq, beq_iff_eq]
    exact ⟨by positivity, land_pred_of_pow2 k⟩

lemma testBit_two_pow_add_lt {k r i : Nat} (hik : i < k) :
    (2 ^ k + r).testBit i = r.testBit i := by
  rw [Nat.testBit_to_div_mod, Nat.testBit_to_div_mod]
  have hsplit : 2 ^ k + r = r + 2 ^ (k - i) * 2 ^ i := by
    rw [← pow_add]
    have hki : k - i + i = k := by omega
    rw [hki]
    omega
  rw [hsplit, Nat.add_mul_div_right _ _ (by positivity)]
  have hke : k - i = (k - i - 1) + 1 := by omega
  rw [hke, pow_succ, Nat.add_mul_mod_self_right]

lemma two_bits_iff_not_pow2 {x : Nat} (hx : x ≠ 0) :
    (∃ i j, i < j ∧ x.testBit i = true ∧ x.testBit j = true) ↔ ¬ ∃ k, x = 2 ^ k := by
  constructor
  · rintro ⟨i, j, hij, hi, hj⟩ ⟨k, rfl⟩
    rw [Nat.testBit_two_pow] at hi hj
    simp only [decide_eq_true_eq] at hi hj
    omega
  · intro hnp
    have hlo : 2 ^ Nat.log2 x ≤ x := Nat.log2_self_le hx
    have hhi : x < 2 ^ (Nat.log2 x + 1) := Nat.lt_log2_self
    have hgt : 2 ^ Nat.log2 x < x := by
      rcases lt_or_eq_of_le hlo with h | h
      · exact h
      · exact absurd ⟨Nat.log2 x, h.symm⟩ hnp
    set k := Nat.log2 x with hk
    set r := x - 2 ^ k with hrdef
    have hrpos : r ≠ 0 := by omega
    have hrlt : r < 2 ^ k := by
      have : 2 ^ (k + 1) = 2 ^ k + 2 ^ k := by ring
      omega
    have hxr : x = 2 ^ k + r := by omega
    have hjlt : Nat.log2 r < k := (Nat.log2_lt hrpos).mpr hrlt
    refine ⟨Nat.log2 r, k, hjlt, ?_, testBit_true_of_bounds hlo hhi⟩
    rw [hxr, testBit_two_pow_add_lt hjlt]
    exact testBit_true_of_bounds (Nat.log2_self_le hrpos) Nat.lt_log2_self

/-- The validator accepts only sizes inside the model's bounds that pass
the power-of-two test. -/
lemma validate_ok_bounds {v ram : Nat} (h : validate_ram ram v = .ok ()) :
    (bcm283x_boards v).ram_size_min ≤ ram ∧ ram ≤ (bcm283x_boards v).ram_size_max ∧
      is_power_of_2 ram = true := by
  simp only [validate_ram] at h
  split_ifs at h with h1 h2 h3
  · exact ⟨by omega, by omega, by simpa using h3⟩

/-- Every (version, RAM size) pair the validator accepts: exactly 1 GiB
for versions 2 and 3, the four powers of two from 1 GiB to 8 GiB for
version 4. -/
lemma validate_ok_cases {v ram : Nat} (hv : v ∈ supported_versions)
    (h : validate_ram ram v = .ok ()) :
    (v = 2 ∧ ram = GiB) ∨ (v = 3 ∧ ram = GiB) ∨
      (v = 4 ∧ (ram = GiB ∨ ram = 2 * GiB ∨ ram = 4 * GiB ∨ ram = 8 * GiB)) := by
  obtain ⟨h1, h2, h3⟩ := validate_ok_bounds h
  obtain ⟨k, rfl⟩ := (is_power_of_2_iff _).mp h3
  have h12 : (1 : Nat) < 2 := by norm_num
  fin_cases hv
  · refine Or.inl ⟨rfl, ?_⟩
    simp only [bcm283x_boards] at h1 h2
    rw [show (1 : Nat) * GiB = 2 ^ 30 from by norm_num [GiB]] at h1 h2
    have ha := (Nat.pow_le_pow_iff_right h12).mp h1
    have hb := (Nat.pow_le_pow_iff_right h12).mp h2
    have hk : k = 30 := by omega
    subst hk
    norm_num [GiB]
  · refine Or.inr (Or.inl ⟨rfl, ?_⟩)
    simp only [bcm283x_boards] at h1 h2
    rw [show (1 : Nat) * GiB = 2 ^ 30 from by norm_num [GiB]] at h1 h2
    have ha := (Nat.pow_le_pow_iff_right h12).mp h1
    have hb := (Nat.pow_le_pow_iff_right h12).mp h2
    have hk : k = 30 := by omega
    subst hk
    norm_num [GiB]
  · refine Or.inr (Or.inr ⟨rfl, ?_⟩)
    simp only [bcm283x_boards] at h1 h2
    rw [show (1 : Nat) * GiB = 2 ^ 30 from by norm_num [GiB]] at h1
    rw [show (8 : Nat) * GiB = 2 ^ 33 from by norm_num [GiB]] at h2
    have ha := (Nat.pow_le_pow_iff_right h12).mp h1
    have hb := (Nat.pow_le_pow_iff_right h12).mp h2
    interval_cases k <;> norm_num [GiB]

/-! ### Guest-memory lemmas -/

lemma writeBytes_apply_lt (m : Nat → Nat) (a x : Nat) (bs : List Nat) (h : x < a) :
    writeBytes m a bs x = m x := by
  induction bs generalizing m a with
  | nil => rfl
  | cons b bs ih =>
      rw [writeBytes, ih _ _ (by omega)]
      rw [if_neg (by omega)]

lemma writeBytes_apply_in (m : Nat → Nat) (a : Nat) (bs : List Nat) (i : Nat)
    (h : i < bs.length) : writeBytes m a bs (a + i) = bs.getD i 0 := by
  induction bs generalizing m a i with
  | nil => simp at h
  | cons b bs ih =>
      cases i with
      | zero =>
          rw [writeBytes, writeBytes_apply_lt _ _ _ _ (by omega)]
          simp
      | succ j =>
          rw [writeBytes, show a + (j + 1) = (a + 1) + j from by omega,
            ih _ _ _ (by simpa using h)]
          simp [List.getD_cons_succ]

lemma read64_writeBytes_zero (m : Nat → Nat) (a off : Nat) (bs : List Nat)
    (hz : ∀ i, bs.getD i 0 = 0) (hlen : off + 8 ≤ bs.length) :
    read64 (writeBytes m a bs) (a + off) = 0 := by
  simp only [read64]
  have h0 : writeBytes m a bs (a + off) = 0 := by
    rw [writeBytes_apply_in _ _ _ _ (by omega)]; exact hz off
  have h1 : writeBytes m a bs (a + off + 1) = 0 := by
    rw [show a + off + 1 = a + (off + 1) from by omega,
      writeBytes_apply_in _ _ _ _ (by omega)]
    exact hz (off + 1)
  have h2 : writeBytes m a bs (a + off + 2) = 0 := by
    rw [show a + off + 2 = a + (off + 2) from by omega,
      writeBytes_apply_in _ _ _ _ (by omega)]
    exact hz (off + 2)
  have h3 : writeBytes m a bs (a + off + 3) = 0 := by
    rw [show a + off + 3 = a + (off + 3) from by omega,
      writeBytes_apply_in _ _ _ _ (by omega)]
    exact hz (off + 3)
  have h4 : writeBytes m a bs (a + off + 4) = 0 := by
    rw [show a + off + 4 = a + (off + 4) from by omega,
      writeBytes_apply_in _ _ _ _ (by omega)]
    exact hz (off + 4)
  have h5 : writeBytes m a bs (a + off + 5) = 0 := by
    rw [show a + off + 5 = a + (off + 5) from by omega,
      writeBytes_apply_in _ _ _ _ (by omega)]
    exact hz (off + 5)
  have h6 : writeBytes m a bs (a + off + 6) = 0 := by
    rw [show a + off + 6 = a + (off + 6) from by omega,
      writeBytes_apply_in _ _ _ _ (by omega)]
    exact hz (off + 6)
  have h7 : writeBytes m a bs (a + off + 7) = 0 := by
    rw [show a + off + 7 = a + (off + 7) from by omega,
      writeBytes_apply_in _ _ _ _ (by omega)]
    exact hz (off + 7)
  rw [h0, h1, h2, h3, h4, h5, h6, h7]
  norm_num

lemma spintable_bytes_getD_zero : ∀ i, (bytesOfWords64 spintables).getD i 0 = 0 := by
  intro i
  rcases Nat.lt_or_ge i 32 with h | h
  · interval_cases i <;> rfl
  · rw [List.getD_eq_default]
    exact le_trans (by decide) h

/-! ### Claim theorems: trampoline injectors -/

/-- C4 counterexample: the 32-bit injector's fixed blob is 48 bytes, i.e.
12 32-bit words, not 11 as claimed. -/
theorem C4_counterexample :
    write_smpboot initBinfo = [(initBinfo.smp_loader_start, bytesOfWords32 smpboot)] ∧
      (bytesOfWords32 smpboot).length = 48 ∧
      ¬ (bytesOfWords32 smpboot).length = 4 * 11 := by
  decide

/-- C4 (amended): the 32-bit trampoline injector performs exactly one
write, of a fixed input-independent 12-word blob (11 instructions plus one
literal-pool constant), at the trampoline base address recorded in the
boot descriptor. -/
theorem C4_trampoline32_write (info : ArmBootInfo) :
    write_smpboot info = [(info.smp_loader_start, bytesOfWords32 smpboot)] ∧
      smpboot.length = 12 ∧ (bytesOfWords32 smpboot).length = 4 * 12 := by
  exact ⟨rfl, by decide, by decide⟩

/-- C5: the 32-bit trampoline blob never overlaps the secure-vector
region: `SMPBOOT_ADDR + sizeof(smpboot) <= MVBAR_ADDR` for the fixed
addresses 0x300 and 0x400 (the `QEMU_BUILD_BUG_ON` at raspi.c line 127,
a build-time check with no runtime error path). -/
theorem C5_no_vector_overlap :
    SMPBOOT_ADDR = 0x300 ∧ MVBAR_ADDR = 0x400 ∧
      SMPBOOT_ADDR + (bytesOfWords32 smpboot).length ≤ MVBAR_ADDR := by
  decide

/-- C6: the 64-bit injector writes, besides the instruction sequence at
the trampoline base, a block of four 64-bit words at the fixed spin-table
base address, all zero, as part of committing the registered rom blobs at
image-load time; each of the four spin-table slots read afterwards is
zero, whatever guest memory held before. -/
theorem C6_spintable_all_zero (m : Nat → Nat) (info : ArmBootInfo) :
    write_smpboot64 info =
      [(info.smp_loader_start, bytesOfWords32 smpboot64),
       (SPINTABLE_ADDR, bytesOfWords64 spintables)] ∧
    spintables.length = 4 ∧ (∀ x ∈ spintables, x = 0) ∧
    (read64 (applyBlobs m (write_smpboot64 info)) SPINTABLE_ADDR = 0 ∧
      read64 (applyBlobs m (write_smpboot64 info)) (SPINTABLE_ADDR + 8) = 0 ∧
      read64 (applyBlobs m (write_smpboot64 info)) (SPINTABLE_ADDR + 16) = 0 ∧
      read64 (applyBlobs m (write_smpboot64 info)) (SPINTABLE_ADDR + 24) = 0) := by
  refine ⟨rfl, by decide, by decide, ?_, ?_, ?_, ?_⟩ <;>
  · show read64 (writeBytes (writeBytes m info.smp_loader_start (bytesOfWords32 smpboot64))
      SPINTABLE_ADDR (bytesOfWords64 spintables)) _ = 0
    first
      | exact read64_writeBytes_zero _ _ 0 _ spintable_bytes_getD_zero (by decide)
      | exact read64_writeBytes_zero _ _ 8 _ spintable_bytes_getD_zero (by decide)
      | exact read64_writeBytes_zero _ _ 16 _ spintable_bytes_getD_zero (by decide)
      | exact read64_writeBytes_zero _ _ 24 _ spintable_bytes_getD_zero (by decide)

/-! ### Claim theorems: RAM validation and revision encoding -/

lemma validate_ok_iff (v ram : Nat) :
    validate_ram ram v = .ok () ↔
      ((bcm283x_boards v).ram_size_min ≤ ram ∧ ram ≤ (bcm283x_boards v).ram_size_max ∧
        is_power_of_2 ram = true) := by
  constructor
  · exact validate_ok_bounds
  · rintro ⟨a, b, c⟩
    simp only [validate_ram]
    rw [if_neg (by omega), if_neg (by omega), if_neg (by simp [c])]

lemma validate_tooSmall_iff (v ram : Nat) :
    validate_ram ram v = .error .TooSmall ↔ ram < (bcm283x_boards v).ram_size_min := by
  constructor
  · intro h
    by_contra hn
    simp only [validate_ram, if_neg hn] at h
    split_ifs at h <;> simp_all
  · intro h
    simp [validate_ram, h]

lemma validate_tooLarge_iff (v ram : Nat)
    (hmm : (bcm283x_boards v).ram_size_min ≤ (bcm283x_boards v).ram_size_max) :
    validate_ram ram v = .error .TooLarge ↔ (bcm283x_boards v).ram_size_max < ram := by
  constructor
  · intro h
    simp only [validate_ram] at h
    split_ifs at h <;> simp_all
  · intro h
    simp only [validate_ram]
    rw [if_neg (by omega), if_pos (by omega)]

lemma validate_notPow2_iff (v ram : Nat) :
    validate_ram ram v = .error .NotPowerOfTwo ↔
      ((bcm283x_boards v).ram_size_min ≤ ram ∧ ram ≤ (bcm283x_boards v).ram_size_max ∧
        is_power_of_2 ram = false) := by
  constructor
  · intro h
    simp only [validate_ram] at h
    split_ifs at h with h1 h2 h3 <;> simp_all
  · rintro ⟨a, b, c⟩
    simp only [validate_ram]
    rw [if_neg (by omega), if_neg (by omega), if_pos (by simp [c])]

/-- C10: the identity table gives versions 2 and 3 a degenerate RAM range
(min = max = 1 GiB), so their validator accepts exactly 1 GiB and rejects
everything else; version 4 admits a genuine range, accepting exactly the
powers of two from 1 GiB to 8 GiB. -/
theorem C10_degenerate_ram_ranges :
    ((bcm283x_boards 2).ram_size_min = 1 * GiB ∧ (bcm283x_boards 2).ram_size_max = 1 * GiB) ∧
    ((bcm283x_boards 3).ram_size_min = 1 * GiB ∧ (bcm283x_boards 3).ram_size_max = 1 * GiB) ∧
    ((bcm283x_boards 4).ram_size_min = 1 * GiB ∧ (bcm283x_boards 4).ram_size_max = 8 * GiB) ∧
    (∀ ram, validate_ram ram 2 = .ok () ↔ ram = GiB) ∧
    (∀ ram, validate_ram ram 3 = .ok () ↔ ram = GiB) ∧
    (∀ ram, validate_ram ram 4 = .ok () ↔
      (ram = GiB ∨ ram = 2 * GiB ∨ ram = 4 * GiB ∨ ram = 8 * GiB)) := by
  refine ⟨⟨rfl, rfl⟩, ⟨rfl, rfl⟩, ⟨rfl, rfl⟩, ?_, ?_, ?_⟩
  · intro ram
    constructor
    · intro h
      rcases validate_ok_cases (by decide) h with ⟨_, hr⟩ | ⟨hv, _⟩ | ⟨hv, _⟩ <;> omega
    · rintro rfl
      decide
  · intro ram
    constructor
    · intro h
      rcases validate_ok_cases (by decide) h with ⟨hv, _⟩ | ⟨_, hr⟩ | ⟨hv, _⟩ <;> omega
    · rintro rfl
      decide
  · intro ram
    constructor
    · intro h
      rcases validate_ok_cases (by decide) h with ⟨hv, _⟩ | ⟨hv, _⟩ | ⟨_, hr⟩ <;> omega
    · rintro (rfl | rfl | rfl | rfl) <;> decide

/-- C2: for every supported model the validator returns Ok exactly on the
power-of-two sizes inside the inclusive [min, max] interval; otherwise it
fails with the matching kind under the source's check order: TooSmall
exactly when the size is below the minimum, TooLarge exactly when it is
at least the minimum and above the maximum, NotPowerOfTwo exactly when it
is inside the interval but has more than one set bit; and any validation
failure makes machine construction fail with that error. -/
theorem C2_validate_characterization :
    ∀ v, v ∈ supported_versions → ∀ ram,
      (validate_ram ram v = .ok () ↔
        ((bcm283x_boards v).ram_size_min ≤ ram ∧ ram ≤ (bcm283x_boards v).ram_size_max ∧
          ∃ k, ram = 2 ^ k)) ∧
      (validate_ram ram v = .error .TooSmall ↔ ram < (bcm283x_boards v).ram_size_min) ∧
      (validate_ram ram v = .error .TooLarge ↔ (bcm283x_boards v).ram_size_max < ram) ∧
      (validate_ram ram v = .error .NotPowerOfTwo ↔
        ((bcm283x_boards v).ram_size_min ≤ ram ∧ ram ≤ (bcm283x_boards v).ram_size_max ∧
          ∃ i j, i < j ∧ ram.testBit i = true ∧ ram.testBit j = true)) ∧
      (∀ e b0 nb vcram fw, validate_ram ram v = .error e →
        raspi_init b0 v ram nb vcram fw = .error e) := by
  intro v hv ram
  have hmm : (bcm283x_boards v).ram_size_min ≤ (bcm283x_boards v).ram_size_max := by
    fin_cases hv <;> norm_num [bcm283x_boards, GiB]
  have hminpos : 0 < (bcm283x_boards v).ram_size_min := by
    fin_cases hv <;> norm_num [bcm283x_boards, GiB]
  refine ⟨?_, validate_tooSmall_iff v ram, validate_tooLarge_iff v ram hmm, ?_, ?_⟩
  · rw [validate_ok_iff]
    constructor
    · rintro ⟨a, b, c⟩
      exact ⟨a, b, (is_power_of_2_iff ram).mp c⟩
    · rintro ⟨a, b, c⟩
      exact ⟨a, b, (is_power_of_2_iff ram).mpr c⟩
  · rw [validate_notPow2_iff]
    constructor
    · rintro ⟨a, b, c⟩
      have hx : ram ≠ 0 := by omega
      refine ⟨a, b, (two_bits_iff_not_pow2 hx).mpr ?_⟩
      rw [← is_power_of_2_iff]
      simp [c]
    · rintro ⟨a, b, c⟩
      have hx : ram ≠ 0 := by omega
      refine ⟨a, b, ?_⟩
      have hnp := (two_bits_iff_not_pow2 hx).mp c
      rw [← is_power_of_2_iff] at hnp
      simpa using hnp
  · intro e b0 nb vcram fw h
    simp [raspi_init, h, Bind.bind, Except.bind]

/-- C2 witness: for version 4, 10 GiB is rejected as TooLarge, 512 MiB as
TooSmall, 3 GiB as NotPowerOfTwo, and 2 GiB is accepted; a TooLarge
validation failure propagates to `raspi_init`. -/
theorem C2_witness :
    4 ∈ supported_versions ∧
    (validate_ram (10 * GiB) 4 = .error .TooLarge ∧
      validate_ram (512 * MiB) 4 = .error .TooSmall ∧
      validate_ram (3 * GiB) 4 = .error .NotPowerOfTwo ∧
      validate_ram (2 * GiB) 4 = .ok () ∧
      raspi_init initBinfo 4 (10 * GiB) 4 0 none = .error .TooLarge) := by
  have h := C2_validate_characterization 4 (by decide)
  refine ⟨by decide, ?_, ?_, ?_, ?_, ?_⟩
  · exact (h (10 * GiB)).2.2.1.mpr (by decide)
  · exact (h (512 * MiB)).2.1.mpr (by decide)
  · exact (h (3 * GiB)).2.2.2.1.mpr
      ⟨by decide, by decide, 30, 31, by decide, by decide, by decide⟩
  · exact (h (2 * GiB)).1.mpr ⟨by decide, by decide, 31, by decide⟩
  · exact (h (10 * GiB)).2.2.2.2 .TooLarge initBinfo 4 0 none
      ((h (10 * GiB)).2.2.1.mpr (by decide))

lemma nat_log2_eval (n r : Nat) (h1 : n < 2 ^ 64) (h2 : log2fuel 64 n = r) :
    Nat.log2 n = r := by
  rw [← log2fuel_eq_log2 64 n h1, h2]

/-- C1: for every supported model and every RAM size the validator
accepts, the revision word is below 2^32 and is exactly the sum of the
five fields at their documented offsets — log2(ramSize/1MiB) (a value
fitting 6 bits) at offset 20, manufacturer at 16, chip at 12, board type
at 4 and revision step at 0 — and each field reads back through its mask. -/
theorem C1_revision_code_layout :
    ∀ v, v ∈ supported_versions → ∀ ram, validate_ram ram v = .ok () →
      board_rev_encode ram v < 2 ^ 32 ∧
      Nat.log2 (ram / MiB) < 2 ^ 6 ∧
      (board_rev_encode ram v >>> 20) &&& 0x3f = Nat.log2 (ram / MiB) ∧
      (board_rev_encode ram v >>> 16) &&& 0xf = (bcm283x_boards v).board_rev.manufacturer ∧
      (board_rev_encode ram v >>> 12) &&& 0xf = (bcm283x_boards v).board_rev.chip ∧
      (board_rev_encode ram v >>> 4) &&& 0xff = (bcm283x_boards v).board_rev.type ∧
      board_rev_encode ram v &&& 0xf = (bcm283x_boards v).board_rev.revision ∧
      board_rev_encode ram v =
        Nat.log2 (ram / MiB) * 2 ^ 20 +
          (bcm283x_boards v).board_rev.manufacturer * 2 ^ 16 +
          (bcm283x_boards v).board_rev.chip * 2 ^ 12 +
          (bcm283x_boards v).board_rev.type * 2 ^ 4 +
          (bcm283x_boards v).board_rev.revision := by
  intro v hv ram h
  rcases validate_ok_cases hv h with ⟨rfl, rfl⟩ | ⟨rfl, rfl⟩ | ⟨rfl, (rfl | rfl | rfl | rfl)⟩
  · rw [show Nat.log2 (GiB / MiB) = 10 from nat_log2_eval _ _ (by decide) (by decide)]
    decide
  · rw [show Nat.log2 (GiB / MiB) = 10 from nat_log2_eval _ _ (by decide) (by decide)]
    decide
  · rw [show Nat.log2 (GiB / MiB) = 10 from nat_log2_eval _ _ (by decide) (by decide)]
    decide
  · rw [show Nat.log2 (2 * GiB / MiB) = 11 from nat_log2_eval _ _ (by decide) (by decide)]
    decide
  · rw [show Nat.log2 (4 * GiB / MiB) = 12 from nat_log2_eval _ _ (by decide) (by decide)]
    decide
  · rw [show Nat.log2 (8 * GiB / MiB) = 13 from nat_log2_eval _ _ (by decide) (by decide)]
    decide

/-- C1 witness, also checking the claim's concrete instance: version 2
with 1 GiB gives chip field 1, manufacturer field 2, type field 4,
revision field 1, RAM-log field 10. -/
theorem C1_witness :
    2 ∈ supported_versions ∧ validate_ram GiB 2 = .ok () ∧
    ((board_rev_encode GiB 2 >>> 12) &&& 0xf = 1 ∧
      (board_rev_encode GiB 2 >>> 16) &&& 0xf = 2 ∧
      (board_rev_encode GiB 2 >>> 4) &&& 0xff = 4 ∧
      board_rev_encode GiB 2 &&& 0xf = 1 ∧
      (board_rev_encode GiB 2 >>> 20) &&& 0x3f = 10) ∧
    board_rev_encode GiB 2 < 2 ^ 32 :=
  ⟨by decide, by decide, by decide,
    (C1_revision_code_layout 2 (by decide) GiB (by decide)).1⟩

/-- C9: the revision encoder is injective over the accepted
(ramSize, model) domain: accepted pairs with equal revision words are
equal. -/
theorem C9_encoder_injective :
    ∀ r1 v1 r2 v2, v1 ∈ supported_versions → v2 ∈ supported_versions →
      validate_ram r1 v1 = .ok () → validate_ram r2 v2 = .ok () →
      board_rev_encode r1 v1 = board_rev_encode r2 v2 → r1 = r2 ∧ v1 = v2 := by
  intro r1 v1 r2 v2 hv1 hv2 h1 h2 heq
  rcases validate_ok_cases hv1 h1 with ⟨rfl, rfl⟩ | ⟨rfl, rfl⟩ | ⟨rfl, (rfl | rfl | rfl | rfl)⟩ <;>
    rcases validate_ok_cases hv2 h2 with ⟨rfl, rfl⟩ | ⟨rfl, rfl⟩ | ⟨rfl, (rfl | rfl | rfl | rfl)⟩ <;>
      first
        | exact ⟨rfl, rfl⟩
        | (exfalso; revert heq; decide)

/-- C9 witness. -/
theorem C9_witness :
    (2 ∈ supported_versions ∧ validate_ram GiB 2 = .ok ()) ∧ GiB = GiB ∧ (2 : Nat) = 2 :=
  ⟨⟨by decide, by decide⟩,
    C9_encoder_injective GiB 2 GiB 2 (by decide) (by decide) (by decide) (by decide) rfl⟩

/-! ### Claim theorems: boot orchestrator -/

/-- C3: starting from the fresh (zero-initialized) descriptor, the
orchestrator installs the secure setup hook exactly for generations ≤ 2,
selects the 32-bit trampoline exactly for generation 2 and the 64-bit one
exactly for generations ≥ 3, installs the secondary-core reset hook
exactly for generations ≥ 2, and records the model's legacy board id. -/
theorem C3_orchestrator_decision_table :
    ∀ v, v ∈ supported_versions → ∀ ram nb b,
      setup_boot initBinfo v ram nb none = .ok b →
      ((b.write_board_setup = true ∧ b.secure_board_setup = true ∧ b.secure_boot = true) ↔
        v ≤ 2) ∧
      (b.write_secondary_boot = some TrampolineKind.ThirtyTwoBit ↔ v = 2) ∧
      (b.write_secondary_boot = some TrampolineKind.SixtyFourBit ↔ 3 ≤ v) ∧
      (b.secondary_cpu_reset_hook = true ↔ 2 ≤ v) ∧
      b.board_id = (bcm283x_boards v).board_id := by
  intro v hv ram nb b h
  fin_cases hv
  · have h2 : setup_boot initBinfo 2 ram nb none = Except.ok
        { board_id := 0xc43, ram_size := ram, nb_cpus := nb,
          board_setup_addr := BOARDSETUP_ADDR, write_board_setup := true,
          secure_board_setup := true, secure_boot := true,
          smp_loader_start := SMPBOOT_ADDR,
          write_secondary_boot := some TrampolineKind.ThirtyTwoBit,
          secondary_cpu_reset_hook := true, entry := 0,
          firmware_loaded := false } := rfl
    rw [h2] at h
    injection h with hb
    subst hb
    exact ⟨by simp, by simp, by simp, by simp, rfl⟩
  · have h2 : setup_boot initBinfo 3 ram nb none = Except.ok
        { board_id := 0xc44, ram_size := ram, nb_cpus := nb,
          smp_loader_start := SMPBOOT_ADDR,
          write_secondary_boot := some TrampolineKind.SixtyFourBit,
          secondary_cpu_reset_hook := true } := rfl
    rw [h2] at h
    injection h with hb
    subst hb
    exact ⟨by simp, by simp, by simp, by simp, rfl⟩
  · have h2 : setup_boot initBinfo 4 ram nb none = Except.ok
        { board_id := 0xc42, ram_size := ram, nb_cpus := nb,
          smp_loader_start := SMPBOOT_ADDR,
          write_secondary_boot := some TrampolineKind.SixtyFourBit,
          secondary_cpu_reset_hook := true } := rfl
    rw [h2] at h
    injection h with hb
    subst hb
    exact ⟨by simp, by simp, by simp, by simp, rfl⟩

/-- C3 witness, also the claim's scenario A: a generation-3 board with
1 GiB RAM and no firmware yields a descriptor with secure setup disabled,
the 64-bit trampoline selected, and legacy board id 0xc44. -/
theorem C3_witness :
    3 ∈ supported_versions ∧
    (setup_boot initBinfo 3 GiB 4 none).map
        (fun b => (b.secure_boot, b.write_board_setup, b.secure_board_setup,
          b.board_id, b.secondary_cpu_reset_hook)) =
      .ok (false, false, false, 0xc44, true) ∧
    (setup_boot initBinfo 3 GiB 4 none).map (fun b => b.write_secondary_boot) =
      .ok (some TrampolineKind.SixtyFourBit) := by
  have h2 : setup_boot initBinfo 3 GiB 4 none = Except.ok
      { board_id := 0xc44, ram_size := GiB, nb_cpus := 4,
        smp_loader_start := SMPBOOT_ADDR,
        write_secondary_boot := some TrampolineKind.SixtyFourBit,
        secondary_cpu_reset_hook := true } := rfl
  have hc := C3_orchestrator_decision_table 3 (by decide) GiB 4 _ h2
  have hx := hc.2.2.1.mpr (by norm_num)
  refine ⟨by decide, by decide, ?_⟩
  rw [h2]
  exact congrArg Except.ok hx

/-- C7: with a firmware image supplied, the orchestrator records load
address 0x8000 for generation 2 and 0x80000 for generations ≥ 3 as the
single entry point with the bypass flag set, succeeding exactly when the
image fits between the load address and the end of usable RAM and failing
fatally exactly when it does not. -/
theorem C7_firmware_bypass :
    ∀ v, v ∈ supported_versions → ∀ b0 ram nb fwsize,
      (if 3 ≤ v then FIRMWARE_ADDR_3 else FIRMWARE_ADDR_2) ≤ ram →
      ((setup_boot b0 v ram nb (some fwsize) = .error .FirmwareTooBig ↔
          ram - (if 3 ≤ v then FIRMWARE_ADDR_3 else FIRMWARE_ADDR_2) < fwsize) ∧
        ((setup_boot b0 v ram nb (some fwsize)).isOk = true ↔
          fwsize ≤ ram - (if 3 ≤ v then FIRMWARE_ADDR_3 else FIRMWARE_ADDR_2)) ∧
        (∀ b, setup_boot b0 v ram nb (some fwsize) = .ok b →
          b.entry = (if 3 ≤ v then FIRMWARE_ADDR_3 else FIRMWARE_ADDR_2) ∧
          b.firmware_loaded = true)) := by
  intro v hv b0 ram nb fwsize haddr
  fin_cases hv
  · rw [if_neg (by norm_num)] at haddr ⊢
    have hred : setup_boot b0 2 ram nb (some fwsize) =
        (if ram - FIRMWARE_ADDR_2 < fwsize then Except.error InitError.FirmwareTooBig
         else Except.ok
           { board_id := 0xc43, ram_size := ram, nb_cpus := nb,
             board_setup_addr := BOARDSETUP_ADDR, write_board_setup := true,
             secure_board_setup := true, secure_boot := true,
             smp_loader_start := SMPBOOT_ADDR,
             write_secondary_boot := some TrampolineKind.ThirtyTwoBit,
             secondary_cpu_reset_hook := true, entry := FIRMWARE_ADDR_2,
             firmware_loaded := true }) := rfl
    rw [hred]
    split_ifs with hf
    · exact ⟨iff_of_true rfl hf, iff_of_false (by simp [Except.isOk, Except.toBool]) (by omega),
        fun b hb => absurd hb (by simp)⟩
    · refine ⟨iff_of_false (by simp) (by omega),
        iff_of_true (by simp [Except.isOk, Except.toBool]) (by omega), fun b hb => ?_⟩
      injection hb with hb2
      subst hb2
      exact ⟨rfl, rfl⟩
  · rw [if_pos (by norm_num)] at haddr ⊢
    have hred : setup_boot b0 3 ram nb (some fwsize) =
        (if ram - FIRMWARE_ADDR_3 < fwsize then Except.error InitError.FirmwareTooBig
         else Except.ok
           { board_id := 0xc44, ram_size := ram, nb_cpus := nb,
             board_setup_addr := b0.board_setup_addr,
             write_board_setup := b0.write_board_setup,
             secure_board_setup := b0.secure_board_setup,
             secure_boot := b0.secure_boot,
             smp_loader_start := SMPBOOT_ADDR,
             write_secondary_boot := some TrampolineKind.SixtyFourBit,
             secondary_cpu_reset_hook := true, entry := FIRMWARE_ADDR_3,
             firmware_loaded := true }) := rfl
    rw [hred]
    split_ifs with hf
    · exact ⟨iff_of_true rfl hf, iff_of_false (by simp [Except.isOk, Except.toBool]) (by omega),
        fun b hb => absurd hb (by simp)⟩
    · refine ⟨iff_of_false (by simp) (by omega),
        iff_of_true (by simp [Except.isOk, Except.toBool]) (by omega), fun b hb => ?_⟩
      injection hb with hb2
      subst hb2
      exact ⟨rfl, rfl⟩
  · rw [if_pos (by norm_num)] at haddr ⊢
    have hred : setup_boot b0 4 ram nb (some fwsize) =
        (if ram - FIRMWARE_ADDR_3 < fwsize then Except.error InitError.FirmwareTooBig
         else Except.ok
           { board_id := 0xc42, ram_size := ram, nb_cpus := nb,
             board_setup_addr := b0.board_setup_addr,
             write_board_setup := b0.write_board_setup,
             secure_board_setup := b0.secure_board_setup,
             secure_boot := b0.secure_boot,
             smp_loader_start := SMPBOOT_ADDR,
             write_secondary_boot := some TrampolineKind.SixtyFourBit,
             secondary_cpu_reset_hook := true, entry := FIRMWARE_ADDR_3,
             firmware_loaded := true }) := rfl
    rw [hred]
    split_ifs with hf
    · exact ⟨iff_of_true rfl hf, iff_of_false (by simp [Except.isOk, Except.toBool]) (by omega),
        fun b hb => absurd hb (by simp)⟩
    · refine ⟨iff_of_false (by simp) (by omega),
        iff_of_true (by simp [Except.isOk, Except.toBool]) (by omega), fun b hb => ?_⟩
      injection hb with hb2
      subst hb2
      exact ⟨rfl, rfl⟩

/-- C7 witness, also the claim's scenario C: generation 2 with 1 GiB of
usable RAM accepts a firmware image of exactly ramSize − 0x8000 bytes and
rejects one of a single byte more. -/
theorem C7_witness :
    (2 ∈ supported_versions ∧
      (if 3 ≤ 2 then FIRMWARE_ADDR_3 else FIRMWARE_ADDR_2) ≤ GiB ∧
      ((setup_boot initBinfo 2 GiB 4 (some (GiB - 0x8000))).isOk = true ↔
        GiB - 0x8000 ≤ GiB - (if 3 ≤ 2 then FIRMWARE_ADDR_3 else FIRMWARE_ADDR_2))) ∧
    (setup_boot initBinfo 2 GiB 4 (some (GiB - 0x8000))).isOk = true ∧
    setup_boot initBinfo 2 GiB 4 (some (GiB - 0x8000 + 1)) =
      .error InitError.FirmwareTooBig := by
  refine ⟨⟨by decide, by decide, ?_⟩, by decide, by decide⟩
  exact (C7_firmware_bypass 2 (by decide) initBinfo GiB 4 (GiB - 0x8000) (by decide)).2.1

/-- C8 counterexample: the descriptor handed to the loader is not
independent of earlier machine instantiations.  In a fresh process a
generation-3 construction yields secure_boot = false, but the same
generation-3 construction performed after a generation-2 construction
yields secure_boot = true: the flag set by the earlier instantiation
carries over through the static descriptor. -/
theorem C8_counterexample :
    (setup_boot initBinfo 3 GiB 4 none).map (fun b => b.secure_boot) = .ok false ∧
    ((setup_boot initBinfo 2 GiB 4 none).bind
        (fun b1 => setup_boot b1 3 GiB 4 none)).map (fun b => b.secure_boot) = .ok true := by
  decide

/-- C8 (amended): the boot descriptor is a single process-wide static
reused across machine instantiations.  Each `setup_boot` call overwrites
the board id, RAM size and core count, and the fields its generation
selects, but every field an earlier instantiation set and the current
generation does not write — for generation 3 the secure-setup fields and
the firmware entry fields — carries over unchanged into the descriptor
handed to the loader; the orchestrator itself does not touch the
descriptor after that handoff. -/
theorem C8_static_descriptor_carryover :
    ∀ b0 ram nb b, setup_boot b0 3 ram nb none = .ok b →
      b.secure_boot = b0.secure_boot ∧
      b.write_board_setup = b0.write_board_setup ∧
      b.secure_board_setup = b0.secure_board_setup ∧
      b.board_setup_addr = b0.board_setup_addr ∧
      b.entry = b0.entry ∧
      b.firmware_loaded = b0.firmware_loaded ∧
      b.board_id = 0xc44 ∧ b.ram_size = ram ∧ b.nb_cpus = nb := by
  intro b0 ram nb b h
  have hred : setup_boot b0 3 ram nb none = Except.ok
      { board_id := 0xc44, ram_size := ram, nb_cpus := nb,
        board_setup_addr := b0.board_setup_addr,
        write_board_setup := b0.write_board_setup,
        secure_board_setup := b0.secure_board_setup,
        secure_boot := b0.secure_boot,
        smp_loader_start := SMPBOOT_ADDR,
        write_secondary_boot := some TrampolineKind.SixtyFourBit,
        secondary_cpu_reset_hook := true,
        entry := b0.entry, firmware_loaded := b0.firmware_loaded } := rfl
  rw [hred] at h
  injection h with hb
  subst hb
  exact ⟨rfl, rfl, rfl, rfl, rfl, rfl, rfl, rfl, rfl⟩

/-- C8 witness. -/
theorem C8_witness :
    (setup_boot initBinfo 3 GiB 4 none).map (fun b => b.secure_boot) =
      .ok initBinfo.secure_boot ∧
    (setup_boot initBinfo 3 GiB 4 none).map (fun b => b.board_id) = .ok 0xc44 := by
  have h2 : setup_boot initBinfo 3 GiB 4 none = Except.ok
      { board_id := 0xc44, ram_size := GiB, nb_cpus := 4,
        smp_loader_start := SMPBOOT_ADDR,
        write_secondary_boot := some TrampolineKind.SixtyFourBit,
        secondary_cpu_reset_hook := true } := rfl
  have hc := C8_static_descriptor_carryover initBinfo GiB 4 _ h2
  constructor
  · rw [h2]
    exact congrArg Except.ok hc.1
  · rw [h2]
    exact congrArg Except.ok hc.2.2.2.2.2.2.1

end Raspi
